import Mathlib

/-!
Verification of `src/synthesis_engine/api_manufacturer_discovery.py`
(`ApiManufacturerDiscoveryService`).

The Python code is shallowly embedded below.  Strings are modelled as Lean
`String`s, but all character-level operations (`str.strip`, `str.lower`,
`str.split`, `str.splitlines`, `in`, `startswith`, `endswith`) are
re-implemented over `List Char` to mirror CPython's semantics for the
character ranges this program manipulates.  Case mapping (`Char.toLower`)
is the ASCII mapping — CPython's `str.lower` agrees with it on ASCII text;
the full Unicode case table is out of scope and noted where it matters.

Fallible code is modelled with `Option`: `urlparse` raising `ValueError`
(which it does on an authority containing an unbalanced square bracket)
is modelled by `none` propagating out of `_is_valid_source?` and
`_extract_manufacturers?`.  External collaborators (the Groq client, the
Supabase REST store and the injected fallback store) are opaque oracles
supplied through the `GroqEnv` and `StoreEnv` structures, and the side
effects performed by `discover` (store fetches, model calls, store
inserts) are recorded in an explicit event trace.
-/

/-! ## Python-style character and string primitives -/

/-- Characters CPython's `str.strip()` removes: `str.isspace` code points
up to the Unicode spaces. -/
def isPySpace (c : Char) : Bool :=
  c == ' ' || c == '\t' || c == '\n' || c == '\r' ||
  c.toNat == 0x0b || c.toNat == 0x0c ||
  (0x1c ≤ c.toNat && c.toNat ≤ 0x1f) ||
  c.toNat == 0x85 || c.toNat == 0xa0 || c.toNat == 0x1680 ||
  (0x2000 ≤ c.toNat && c.toNat ≤ 0x200a) ||
  c.toNat == 0x2028 || c.toNat == 0x2029 ||
  c.toNat == 0x202f || c.toNat == 0x205f || c.toNat == 0x3000

/-- `l` with leading and trailing Python whitespace removed (`str.strip`). -/
def stripList (l : List Char) : List Char :=
  ((l.dropWhile isPySpace).reverse.dropWhile isPySpace).reverse

/-- `str.strip()`. -/
def pyStrip (s : String) : String :=
  String.mk (stripList s.data)

/-- `str.lower()` (ASCII case mapping, matching CPython on ASCII text). -/
def pyLower (s : String) : String :=
  String.mk (s.data.map Char.toLower)

/-- `lpre p l` is true when the list `p` is an initial segment of `l`. -/
def lpre : List Char → List Char → Bool
  | [], _ => true
  | _ :: _, [] => false
  | a :: as, b :: bs => a == b && lpre as bs

/-- `s.startswith(p)`. -/
def pyStartsWith (s p : String) : Bool :=
  lpre p.data s.data

/-- `s.endswith(p)`. -/
def pyEndsWith (s p : String) : Bool :=
  lpre p.data.reverse s.data.reverse

/-- `needle` occurs as a contiguous sub-sequence of `hay`. -/
def subOccurs (needle : List Char) : List Char → Bool
  | [] => lpre needle []
  | c :: rest => lpre needle (c :: rest) || subOccurs needle rest

/-- Python's `needle in hay` on strings. -/
def pyContains (hay needle : String) : Bool :=
  subOccurs needle.data hay.data

/-- `str.split(sep)` for a one-character separator: keeps empty segments,
always returns at least one segment. -/
def splitOnChar (sep : Char) : List Char → List (List Char)
  | [] => [[]]
  | c :: rest =>
    if c = sep then [] :: splitOnChar sep rest
    else
      match splitOnChar sep rest with
      | s :: ss => (c :: s) :: ss
      | [] => [[c]]

/-- `s.split(sep)` for a one-character separator. -/
def pySplit (sep : Char) (s : String) : List String :=
  (splitOnChar sep s.data).map String.mk

/-- Line-boundary characters of `str.splitlines` other than `'\r'`
(which is handled separately so `"\r\n"` counts as one break). -/
def isLineBoundary (c : Char) : Bool :=
  c == '\n' || c.toNat == 0x0b || c.toNat == 0x0c ||
  c.toNat == 0x1c || c.toNat == 0x1d || c.toNat == 0x1e ||
  c.toNat == 0x85 || c.toNat == 0x2028 || c.toNat == 0x2029

/-- Worker for `pySplitlines`; `acc` holds the current line reversed and
`cr` records that the previous character was a line-ending `'\r'` (so a
directly following `'\n'` is part of the same `"\r\n"` break). -/
def splitlinesGo (cr : Bool) (acc : List Char) : List Char → List (List Char)
  | [] => if acc.isEmpty then [] else [acc.reverse]
  | c :: rest =>
    if cr && c = '\n' then splitlinesGo false acc rest
    else if c = '\r' then acc.reverse :: splitlinesGo true [] rest
    else if isLineBoundary c then acc.reverse :: splitlinesGo false [] rest
    else splitlinesGo false (c :: acc) rest

/-- `str.splitlines()`: splits at line boundaries (`\n`, `\r`, `\r\n`, and
the other Unicode line breaks), with no trailing empty line. -/
def pySplitlines (s : String) : List String :=
  (splitlinesGo false [] s.data).map String.mk

/-! ## Trust Policy (`_is_valid_source`)

`_is_valid_source` runs `urlparse(url.strip())` and accepts when the
(lower-cased) scheme is `https` and the lower-cased `netloc` equals a
trusted domain or ends with `"." + trusted`.  We model the parts of
CPython's `urllib.parse.urlsplit` that this exercises: the scheme is the
text before the first `':'` when it is non-empty, starts with an ASCII
letter and consists of scheme characters (then it is lower-cased);
the netloc is present only when the remainder starts with `"//"` and runs
to the next `'/'`, `'?'` or `'#'`.  `urlsplit` raises `ValueError` when
the netloc contains `'['` without `']'` or vice versa; that raise is
modelled as `none`.  (The additional bracketed-host validation of newer
CPython and the non-ASCII NFKC check are not modelled; all inputs used
here are bracket-free ASCII except where the bracket error itself is the
point.) -/

/-- The fixed allowlist `self.trusted_domains` (a Python `set`; only
membership is ever used, so a list is an adequate model). -/
def trusted_domains : List String :=
  ["pharmacompass.com",
   "pharmaoffer.com",
   "orangebook.fda.gov",
   "fda.gov",
   "ema.europa.eu",
   "cdsco.gov.in",
   "who.int",
   "dcat.org",
   "scrip.pharmaintelligence.informa.com"]

/-- Characters allowed in a URL scheme (`urllib.parse.scheme_chars`). -/
def isSchemeChar (c : Char) : Bool :=
  c.isAlpha || c.isDigit || c == '+' || c == '-' || c == '.'

/-- `urlsplit`'s scheme split: Python computes `i = url.find(':')` and takes
`url[:i].lower()` as the scheme when `i > 0`, `url[0]` is an ASCII letter
and every character of `url[:i]` is a scheme character; otherwise the
scheme is empty and the remainder is the whole input. -/
def splitScheme (s : List Char) : List Char × List Char :=
  let before := s.takeWhile (fun c => c != ':')
  if before.length = s.length then ([], s)
  else if 0 < before.length ∧ before.all isSchemeChar = true ∧ (s.headD ' ').isAlpha = true
  then (before.map Char.toLower, s.drop (before.length + 1))
  else ([], s)

/-- Delimiters ending the netloc in `_splitnetloc`. -/
def notUrlDelim (c : Char) : Bool :=
  !(c == '/' || c == '?' || c == '#')

/-- The raw netloc text: present only after a leading `"//"`. -/
def rawNetloc (rest : List Char) : List Char :=
  if rest.take 2 = ['/', '/'] then (rest.drop 2).takeWhile notUrlDelim else []

/-- `urlsplit` raises `ValueError` when the netloc has `'['` without `']'`
or `']'` without `'['`. -/
def unbalancedBrackets (l : List Char) : Bool :=
  l.contains '[' != l.contains ']'

/-- The netloc of `urlsplit`, or `none` for the `ValueError` raise. -/
def urlNetloc? (rest : List Char) : Option (List Char) :=
  if rest.take 2 = ['/', '/'] then
    let nl := (rest.drop 2).takeWhile notUrlDelim
    if unbalancedBrackets nl then none else some nl
  else some []

/-- The trusted-domain test of `_is_valid_source`:
`any(domain == trusted or domain.endswith("." + trusted) for ...)`. -/
def trustedNetloc (domain : String) : Bool :=
  trusted_domains.any (fun t => domain == t || pyEndsWith domain ("." ++ t))

/-- `_is_valid_source(url)` on the already-stripped character list:
scheme test then netloc allowlist test (`none` = `ValueError` from
`urlparse`). -/
def validSourceCore (s : List Char) : Option Bool :=
  let pr := splitScheme s
  match urlNetloc? pr.2 with
  | none => none
  | some nl =>
    if String.mk (pr.1.map Char.toLower) ≠ "https" then some false
    else some (trustedNetloc (String.mk (nl.map Char.toLower)))

/-- `_is_valid_source(url)`: `False` for a falsy (empty) url, otherwise
parse `url.strip()` and test scheme and netloc.  `none` models the
`ValueError` escaping when `urlparse` rejects the netloc's brackets. -/
def _is_valid_source? (url : String) : Option Bool :=
  if url = "" then some false
  else validSourceCore (stripList url.data)

/-- Modelled from the claim's words (C1), for comparison with the code:
true iff `url` starts with the literal `"https://"` and the host — the
text after `"https://"` up to the next `'/'`, `'?'` or `'#'` — is exactly
a trusted domain or ends with `"."` followed by one. -/
def claim_is_valid_source (url : String) : Bool :=
  pyStartsWith url "https://" &&
    (let host := String.mk ((url.data.drop 8).takeWhile notUrlDelim)
     trusted_domains.any (fun t => host == t || pyEndsWith host ("." ++ t)))

/-- The amended trust-policy characterisation: after stripping surrounding
whitespace, the url must start case-insensitively with `"https://"` and
its authority (everything up to the next `'/'`, `'?'` or `'#'`),
lower-cased, must equal a trusted domain or end with `"."` + one. -/
def amendedValidCore (s : List Char) : Bool :=
  lpre "https://".data (s.map Char.toLower) &&
    trustedNetloc (String.mk (((s.drop 8).takeWhile notUrlDelim).map Char.toLower))

/-- The amended claim C1 as a predicate on the raw url string. -/
def amended_is_valid_source (url : String) : Bool :=
  amendedValidCore (stripList url.data)

/-! ## Response Parser (`_extract_manufacturers`) -/

/-- The record dict appended by `_extract_manufacturers` (§3's
`ManufacturerRecord`). -/
structure ManufacturerRecord where
  api_name : String
  manufacturer : String
  country : String
  usdmf : String
  cep : String
  source_name : String
  source_url : String
deriving DecidableEq, Repr

/-- The six retained fields of a table row: split on `'|'`, strip each
part, drop the leading and trailing edge artifacts. -/
def rowFields (line : String) : List String :=
  (((pySplit '|' line).map pyStrip).drop 1).dropLast

/-- One iteration of the `for line in lines` loop of
`_extract_manufacturers`.  Result: `none` models an exception escaping
(only `urlparse`'s `ValueError` can — field accesses are modelled with
checked `get?` so an out-of-range access would also surface as `none`);
`some none` a skipped line; `some (some rec)` an appended record. -/
def processLine? (api_name country : String) (existing_lower : List String)
    (line : String) : Option (Option ManufacturerRecord) :=
  if line.data.contains '|' && !pyStartsWith (pyLower line) "| manufacturers"
      && !pyStartsWith line "|---" then
    let raw_parts := (pySplit '|' line).map pyStrip
    if raw_parts.length < 8 then some none
    else
      let parts := (raw_parts.drop 1).dropLast
      if parts.length < 6 then some none
      else
        match parts.get? 0, parts.get? 1, parts.get? 2, parts.get? 3,
            parts.get? 4, parts.get? 5 with
        | some manu_name, some country_val, some f2, some f3,
            some source_name, some source_url =>
          if existing_lower.contains (pyLower manu_name) then some none
          else
            let usdmf := if ["yes", "t"].contains (pyLower (pyStrip f2))
                         then "Yes" else "No"
            let cep := if ["yes", "t"].contains (pyLower (pyStrip f3))
                       then "Yes" else "No"
            match _is_valid_source? source_url with
            | none => none
            | some false => some none
            | some true =>
              if pyContains (pyLower country_val) (pyLower country) then
                some (some ⟨api_name, manu_name, country_val, usdmf, cep,
                            source_name, source_url⟩)
              else some none
        | _, _, _, _, _, _ => none
  else some none

/-- `mapOpt f l` runs `f` over `l`, failing (like an uncaught exception)
as soon as any element fails. -/
def mapOpt (f : α → Option β) : List α → Option (List β)
  | [] => some []
  | a :: l =>
    match f a, mapOpt f l with
    | some b, some bs => some (b :: bs)
    | _, _ => none

/-- `_extract_manufacturers(markdown_output, api_name, country, skip_batch)`:
`some records` is the returned list, `none` models `urlparse`'s
`ValueError` escaping the method.  The Python `for` loop appends at most
one record per line, so it is the `filterMap` of `processLine?` over the
lines; `existing_lower = {name.lower() for name in skip_batch}` is
computed once up front. -/
def _extract_manufacturers? (markdown_output : Option String)
    (api_name country : String) (skip_batch : List String) :
    Option (List ManufacturerRecord) :=
  match markdown_output with
  | none => some []
  | some md =>
    if md = "" then some []
    else
      (mapOpt (processLine? api_name country (skip_batch.map pyLower))
        (pySplitlines md)).map (fun rows => rows.filterMap id)

/-! ## Discovery Orchestrator (`discover` and helpers)

External collaborators are oracles: `GroqEnv.respond` is the text the
model call produces (`none` covers a missing/failed response, an empty
`choices` list and any exception inside `_run_groq_extraction`, all of
which yield `None`); `StoreEnv.query` is `_fetch_existing_records`
(Supabase REST or the fallback service — either way an opaque snapshot);
`StoreEnv.insertResult` is what `_insert_records` reports for a non-empty
insert.  Every externally visible operation is recorded as a
`DiscoveryEvent` so that "no store fetch / no model call / no insert"
claims are statable. -/

/-- The Groq client: `configured = false` models `groq_client is None`. -/
structure GroqEnv where
  configured : Bool
  respond : String → String → List String → Option String

/-- The record store (Supabase REST or the injected fallback service). -/
structure StoreEnv where
  query : String → String → List ManufacturerRecord
  insertResult : List ManufacturerRecord → String → Nat × List ManufacturerRecord

/-- Externally visible side effects of a `discover` run. -/
inductive DiscoveryEvent where
  | storeFetch (api_name country : String)
  | modelCall (api_name country : String) (skip : List String)
  | storeInsert (records : List ManufacturerRecord) (label : String)
deriving DecidableEq, Repr

/-- The dict returned by `discover`: either the validation-failure shape
`{"success": False, "error": ...}` or the success shape. -/
inductive DiscoveryResult where
  | failure (error : String)
  | success (existing_records new_records all_records : List ManufacturerRecord)
      (inserted_count : Nat)
deriving DecidableEq, Repr

/-- Ascending insertion into a sorted list (code-point order, as Python's
`sorted` uses on strings). -/
def insertSorted (x : String) : List String → List String
  | [] => [x]
  | y :: ys => if x ≤ y then x :: y :: ys else y :: insertSorted x ys

/-- Python's `sorted` on a list of strings (stability is irrelevant here:
the input is already deduplicated). -/
def sortStrings (l : List String) : List String :=
  l.foldr insertSorted []

/-- The skip list built in `discover`:
`sorted({(rec.get("manufacturer") or "").strip().lower() for rec in existing
if rec.get("manufacturer")})` — store records are modelled with `""` for a
missing/`None` manufacturer, so the truthiness guard is a non-emptiness
test. -/
def skipListOf (recs : List ManufacturerRecord) : List String :=
  sortStrings (((recs.filter (fun r => r.manufacturer ≠ "")).map
    (fun r => pyLower (pyStrip r.manufacturer))).dedup)

/-- Consecutive 30-element slices:
`[skip_list[i : i + 30] for i in range(0, len(skip_list), 30)]`. -/
def chunk30 (l : List String) : List (List String) :=
  if l = [] then []
  else l.take 30 :: chunk30 (l.drop 30)
termination_by l.length
decreasing_by
  simp only [List.length_drop]
  have : 0 < l.length := List.length_pos.mpr (by assumption)
  omega

/-- The batch list of `discover`: the 30-slices, `or [[]]` — an empty
skip list still yields one empty batch. -/
def makeBatches (skip_list : List String) : List (List String) :=
  let bs := chunk30 skip_list
  if bs.isEmpty then [[]] else bs

/-- `_discover_with_groq(api_name, country, skip_batch)`: returns `[]`
without any model call when the client is unconfigured; otherwise one
model call happens (after the fixed `time.sleep(1)` throttle), a falsy
response yields `[]`, and any exception — including the `ValueError`
escaping `_extract_manufacturers` — is caught and also yields `[]`. -/
def _discover_with_groq (genv : GroqEnv) (api_name country : String)
    (skip_batch : List String) : List ManufacturerRecord × List DiscoveryEvent :=
  if !genv.configured then ([], [])
  else
    match genv.respond api_name country skip_batch with
    | none => ([], [DiscoveryEvent.modelCall api_name country skip_batch])
    | some out =>
      if out = "" then ([], [DiscoveryEvent.modelCall api_name country skip_batch])
      else
        match _extract_manufacturers? (some out) api_name country skip_batch with
        | none => ([], [DiscoveryEvent.modelCall api_name country skip_batch])
        | some recs => (recs, [DiscoveryEvent.modelCall api_name country skip_batch])

/-- The batch loop of `discover`: `discovered_records` starts empty, each
batch's results are appended, and the loop breaks as soon as the
accumulator is non-empty (so it holds exactly the first non-empty batch
result). -/
def runBatches (genv : GroqEnv) (api_name country : String) :
    List (List String) → List ManufacturerRecord × List DiscoveryEvent
  | [] => ([], [])
  | b :: bs =>
    let res := _discover_with_groq genv api_name country b
    if res.1.isEmpty then
      let rest := runBatches genv api_name country bs
      (rest.1, res.2 ++ rest.2)
    else res

/-- `_insert_records(records, source_label)`: an empty list short-circuits
without touching the store; otherwise the store reports
`{"inserted": n, "rows": rows}`. -/
def _insert_records (store : StoreEnv) (records : List ManufacturerRecord)
    (label : String) : (Nat × List ManufacturerRecord) × List DiscoveryEvent :=
  if records.isEmpty then ((0, []), [])
  else (store.insertResult records label, [DiscoveryEvent.storeInsert records label])

/-- `discover(api_name, country)`: validate the (possibly `None`) inputs,
fetch existing records, build the skip-list batches, run the short-circuit
batch loop, insert any discovered records, re-fetch, and return the
result dict.  The second component is the trace of external operations. -/
def discover (genv : GroqEnv) (store : StoreEnv)
    (api_name0 country0 : Option String) :
    DiscoveryResult × List DiscoveryEvent :=
  let api_name := pyStrip (api_name0.getD "")
  let country := pyStrip (country0.getD "")
  if api_name = "" ∨ country = "" then
    (DiscoveryResult.failure "API name and country are required for discovery.", [])
  else
    let existing_records := store.query api_name country
    let batches := makeBatches (skipListOf existing_records)
    let loop := runBatches genv api_name country batches
    let ins :=
      if loop.1.isEmpty then (((0 : Nat), ([] : List ManufacturerRecord)),
        ([] : List DiscoveryEvent))
      else _insert_records store loop.1 "groq_discovery"
    let refreshed := store.query api_name country
    (DiscoveryResult.success existing_records ins.1.2 refreshed ins.1.1,
     DiscoveryEvent.storeFetch api_name country ::
       (loop.2 ++ ins.2 ++ [DiscoveryEvent.storeFetch api_name country]))

/-- A concrete model client used in witnesses: it yields one valid table
row when the skip batch is non-empty and nothing otherwise. -/
def groqEnvW : GroqEnv :=
  ⟨true, fun _ _ skip =>
    if skip.isEmpty then none
    else some "| Alpha | India | yes | no | FDA | https://fda.gov/x |"⟩

/-! ## Character-level lemmas (ASCII case mapping) -/

theorem charToNat_inj (a b : Char) (h : a.toNat = b.toNat) : a = b :=
  Char.ext (UInt32.eq_of_toBitVec_eq (BitVec.eq_of_toNat_eq h))

theorem toNat_ofNat_valid (n : Nat) (h : n.isValidChar) :
    (Char.ofNat n).toNat = n := by
  rw [Char.ofNat, dif_pos h]
  rfl

theorem toLower_spec (c : Char) :
    (65 ≤ c.toNat ∧ c.toNat ≤ 90 ∧ (Char.toLower c).toNat = c.toNat + 32) ∨
    (¬(65 ≤ c.toNat ∧ c.toNat ≤ 90) ∧ Char.toLower c = c) := by
  unfold Char.toLower
  by_cases h : c.toNat ≥ 65 ∧ c.toNat ≤ 90
  · left
    refine ⟨h.1, h.2, ?_⟩
    rw [if_pos h]
    have hv : (c.toNat + 32).isValidChar := by
      left
      have := h.2
      omega
    rw [toNat_ofNat_valid _ hv]
  · right
    exact ⟨h, by rw [if_neg h]⟩

/-- `Char.toLower` only moves code points into `[97, 122]`, so a value
below `'A'` is fixed. -/
theorem toLower_eq_low (c d : Char) (hd : d.toNat < 65)
    (h : Char.toLower c = d) : c = d := by
  rcases toLower_spec c with ⟨h1, _, h3⟩ | ⟨_, h2⟩
  · have hc := congrArg Char.toNat h
    rw [h3] at hc
    omega
  · exact h2.symm.trans h

/-- If `Char.toLower c` is the lower-case letter `d` whose upper-case
partner is `D`, then `c` is `d` or `D`. -/
theorem toLower_eq_letter (c d D : Char) (hD : D.toNat + 32 = d.toNat)
    (_hDu : 65 ≤ D.toNat ∧ D.toNat ≤ 90) (h : Char.toLower c = d) :
    c = d ∨ c = D := by
  rcases toLower_spec c with ⟨_, _, h3⟩ | ⟨_, h2⟩
  · right
    have hc := congrArg Char.toNat h
    rw [h3] at hc
    exact charToNat_inj c D (by omega)
  · left
    exact h2.symm.trans h

theorem toLower_idem (c : Char) :
    Char.toLower (Char.toLower c) = Char.toLower c := by
  rcases toLower_spec c with ⟨h1, h2, h3⟩ | ⟨_, h2⟩
  · rcases toLower_spec (Char.toLower c) with ⟨g1, g2, _⟩ | ⟨_, g2⟩
    · omega
    · exact g2
  · rw [h2]
    exact h2

/-! ## Trust-policy lemmas (towards C1) -/

/-- `dropWhile` is the suffix left after `takeWhile`. -/
theorem dropWhile_eq_drop_len (p : Char → Bool) (l : List Char) :
    l.dropWhile p = l.drop (l.takeWhile p).length := by
  induction l with
  | nil => rfl
  | cons a l ih =>
    by_cases h : p a
    · simp [List.dropWhile_cons, List.takeWhile_cons, h, ih]
    · simp [List.dropWhile_cons, List.takeWhile_cons, h]

/-- On a bracket-free remainder `urlparse` never raises. -/
theorem urlNetloc?_isSome (t : List Char)
    (ht : ∀ c ∈ t, c ≠ '[' ∧ c ≠ ']') :
    urlNetloc? t = some (rawNetloc t) := by
  rw [urlNetloc?, rawNetloc]
  by_cases h2 : t.take 2 = ['/', '/']
  · rw [if_pos h2, if_pos h2]
    have hnb : ∀ c ∈ (t.drop 2).takeWhile notUrlDelim, c ≠ '[' ∧ c ≠ ']' := by
      intro c hc
      exact ht c ((List.drop_subset 2 t)
        ((List.takeWhile_sublist notUrlDelim).subset hc))
    have h1 : ((t.drop 2).takeWhile notUrlDelim).contains '[' = false := by
      rw [← Bool.not_eq_true]
      intro hct
      exact (hnb '[' (List.mem_of_elem_eq_true hct)).1 rfl
    have h2' : ((t.drop 2).takeWhile notUrlDelim).contains ']' = false := by
      rw [← Bool.not_eq_true]
      intro hct
      exact (hnb ']' (List.mem_of_elem_eq_true hct)).2 rfl
    rw [if_neg]
    rw [unbalancedBrackets, h1, h2']
    decide
  · rw [if_neg h2, if_neg h2]

/-- Unfolds `validSourceCore` once both `urlparse` components are known. -/
theorem validSourceCore_eq2 (s A B nl : List Char)
    (hAB : splitScheme s = (A, B)) (hnl : urlNetloc? B = some nl) :
    validSourceCore s =
      (if String.mk (A.map Char.toLower) ≠ "https" then some false
       else some (trustedNetloc (String.mk (nl.map Char.toLower)))) := by
  simp only [validSourceCore, hAB, hnl]

/-- Reading the shape of `s` off a successful `https` scheme split. -/
theorem scheme_shape (s : List Char)
    (hsch : (s.takeWhile (fun c => c != ':')).map Char.toLower =
      ['h', 't', 't', 'p', 's'])
    (hlen : (s.takeWhile (fun c => c != ':')).length ≠ s.length) :
    ∃ y0 y1 y2 y3 y4 t, s = y0 :: y1 :: y2 :: y3 :: y4 :: ':' :: t ∧
      Char.toLower y0 = 'h' ∧ Char.toLower y1 = 't' ∧ Char.toLower y2 = 't' ∧
      Char.toLower y3 = 'p' ∧ Char.toLower y4 = 's' ∧
      s.drop ((s.takeWhile (fun c => c != ':')).length + 1) = t := by
  rcases htw : s.takeWhile (fun c => c != ':') with
      _ | ⟨y0, _ | ⟨y1, _ | ⟨y2, _ | ⟨y3, _ | ⟨y4, bb⟩⟩⟩⟩⟩ <;>
    rw [htw] at hsch <;> simp at hsch
  obtain ⟨h0, h1, h2, h3, h4, hbb⟩ := hsch
  subst hbb
  have hsplit : s = [y0, y1, y2, y3, y4] ++
      s.dropWhile (fun c => c != ':') := by
    conv_lhs => rw [← List.takeWhile_append_dropWhile
      (fun c => c != ':') s]
    rw [htw]
  have hdwne : s.dropWhile (fun c => c != ':') ≠ [] := by
    intro e
    apply hlen
    rw [htw]
    rw [e, List.append_nil] at hsplit
    rw [hsplit]
  rcases hdw : s.dropWhile (fun c => c != ':') with _ | ⟨c, t⟩
  · exact absurd hdw hdwne
  · have hcfalse : (c != ':') = false := by
      have hh := List.head_dropWhile_not (fun c => c != ':') s
      rw [hdw] at hh
      simpa using hh
    have hc : c = ':' := by
      simpa using hcfalse
    subst hc
    rw [hdw] at hsplit
    have hfinal : s.drop (([y0, y1, y2, y3, y4] : List Char).length + 1) = t := by
      conv_lhs => rw [hsplit]
      simp
    exact ⟨y0, y1, y2, y3, y4, t, by simpa using hsplit,
      h0, h1, h2, h3, h4, hfinal⟩

/-- The core of C1's amendment: on bracket-free input the trust check is
exactly "case-insensitive `https://` start, lower-cased authority in the
allowlist". -/
theorem validSourceCore_amended (s : List Char)
    (hs : ∀ c ∈ s, c ≠ '[' ∧ c ≠ ']') :
    validSourceCore s = some (amendedValidCore s) := by
  have hd : "https://".data = ['h', 't', 't', 'p', 's', ':', '/', '/'] := rfl
  have c5 : Char.toLower ':' = ':' := rfl
  have c6 : Char.toLower '/' = '/' := rfl
  by_cases hlp : lpre "https://".data (s.map Char.toLower) = true
  · -- the input begins, case-insensitively, with "https://"
    rw [hd] at hlp
    rcases s with _ | ⟨x0, _ | ⟨x1, _ | ⟨x2, _ | ⟨x3, _ | ⟨x4, _ | ⟨x5,
        _ | ⟨x6, _ | ⟨x7, r⟩⟩⟩⟩⟩⟩⟩⟩ <;> simp [lpre] at hlp
    obtain ⟨h0, h1, h2, h3, h4, h5, h6, h7⟩ := hlp
    have e5 : x5 = ':' := toLower_eq_low x5 ':' (by decide) h5.symm
    have e6 : x6 = '/' := toLower_eq_low x6 '/' (by decide) h6.symm
    have e7 : x7 = '/' := toLower_eq_low x7 '/' (by decide) h7.symm
    subst e5
    subst e6
    subst e7
    have n0 : (x0 != ':') = true := by
      simp only [bne_iff_ne, ne_eq]
      intro e
      rw [e] at h0
      exact absurd h0.symm (by decide)
    have n1 : (x1 != ':') = true := by
      simp only [bne_iff_ne, ne_eq]
      intro e
      rw [e] at h1
      exact absurd h1.symm (by decide)
    have n2 : (x2 != ':') = true := by
      simp only [bne_iff_ne, ne_eq]
      intro e
      rw [e] at h2
      exact absurd h2.symm (by decide)
    have n3 : (x3 != ':') = true := by
      simp only [bne_iff_ne, ne_eq]
      intro e
      rw [e] at h3
      exact absurd h3.symm (by decide)
    have n4 : (x4 != ':') = true := by
      simp only [bne_iff_ne, ne_eq]
      intro e
      rw [e] at h4
      exact absurd h4.symm (by decide)
    have a0 : isSchemeChar x0 = true := by
      rcases toLower_eq_letter x0 'h' 'H' (by decide) (by decide) h0.symm
        with rfl | rfl <;> decide
    have a1 : isSchemeChar x1 = true := by
      rcases toLower_eq_letter x1 't' 'T' (by decide) (by decide) h1.symm
        with rfl | rfl <;> decide
    have a2 : isSchemeChar x2 = true := by
      rcases toLower_eq_letter x2 't' 'T' (by decide) (by decide) h2.symm
        with rfl | rfl <;> decide
    have a3 : isSchemeChar x3 = true := by
      rcases toLower_eq_letter x3 'p' 'P' (by decide) (by decide) h3.symm
        with rfl | rfl <;> decide
    have a4 : isSchemeChar x4 = true := by
      rcases toLower_eq_letter x4 's' 'S' (by decide) (by decide) h4.symm
        with rfl | rfl <;> decide
    have al0 : x0.isAlpha = true := by
      rcases toLower_eq_letter x0 'h' 'H' (by decide) (by decide) h0.symm
        with rfl | rfl <;> decide
    have htw : (x0 :: x1 :: x2 :: x3 :: x4 :: ':' :: '/' :: '/' :: r).takeWhile
        (fun c => c != ':') = [x0, x1, x2, x3, x4] := by
      simp [List.takeWhile_cons, n0, n1, n2, n3, n4]
    have hss : splitScheme (x0 :: x1 :: x2 :: x3 :: x4 :: ':' :: '/' :: '/' :: r) =
        ([x0, x1, x2, x3, x4].map Char.toLower, '/' :: '/' :: r) := by
      simp only [splitScheme]
      rw [htw]
      rw [if_neg (by simp)]
      rw [if_pos ⟨by simp, by simp [a0, a1, a2, a3, a4], by simp [al0]⟩]
      simp
    have hnb : ∀ c ∈ ('/' :: '/' :: r), c ≠ '[' ∧ c ≠ ']' := by
      intro c hc
      rcases List.mem_cons.mp hc with rfl | hc'
      · exact ⟨by decide, by decide⟩
      rcases List.mem_cons.mp hc' with rfl | hc''
      · exact ⟨by decide, by decide⟩
      · exact hs c (by simp [hc''])
    rw [validSourceCore_eq2 _ _ _ _ hss (urlNetloc?_isSome _ hnb)]
    have hmap : [x0, x1, x2, x3, x4].map Char.toLower =
        ['h', 't', 't', 'p', 's'] := by
      simp [h0.symm, h1.symm, h2.symm, h3.symm, h4.symm]
    rw [hmap]
    rw [if_neg (by decide)]
    simp only [amendedValidCore]
    have hlp' : lpre ['h', 't', 't', 'p', 's', ':', '/', '/']
        ((x0 :: x1 :: x2 :: x3 :: x4 :: ':' :: '/' :: '/' :: r).map
          Char.toLower) = true := by
      simp [lpre, h0.symm, h1.symm, h2.symm, h3.symm, h4.symm, c5, c6]
    rw [hlp']
    simp only [Bool.true_and]
    have hraw : rawNetloc ('/' :: '/' :: r) = r.takeWhile notUrlDelim := by
      rw [rawNetloc]
      simp
    rw [hraw]
    rfl
  · -- no case-insensitive "https://" start: both sides are false
    have hlf : lpre "https://".data (s.map Char.toLower) = false :=
      Bool.eq_false_iff.mpr hlp
    have hrhs : amendedValidCore s = false := by
      rw [amendedValidCore, hlf]
      rfl
    rw [hrhs]
    by_cases hlen : (s.takeWhile (fun c => c != ':')).length = s.length
    · have hss : splitScheme s = ([], s) := by
        simp only [splitScheme]
        rw [if_pos hlen]
      rw [validSourceCore_eq2 s [] s (rawNetloc s) hss (urlNetloc?_isSome s hs)]
      rw [if_pos (by decide)]
    · by_cases hguard : 0 < (s.takeWhile (fun c => c != ':')).length ∧
          (s.takeWhile (fun c => c != ':')).all isSchemeChar = true ∧
          (s.headD ' ').isAlpha = true
      · have hss : splitScheme s =
            ((s.takeWhile (fun c => c != ':')).map Char.toLower,
             s.drop ((s.takeWhile (fun c => c != ':')).length + 1)) := by
          simp only [splitScheme]
          rw [if_neg hlen, if_pos hguard]
        by_cases hsch : String.mk (((s.takeWhile (fun c => c != ':')).map
            Char.toLower).map Char.toLower) = "https"
        · -- scheme is https, so the remainder cannot start with "//"
          have hdata : ((s.takeWhile (fun c => c != ':')).map
              Char.toLower).map Char.toLower = ['h', 't', 't', 'p', 's'] :=
            congrArg String.data hsch
          rw [List.map_map] at hdata
          have hone : (s.takeWhile (fun c => c != ':')).map
              (Char.toLower ∘ Char.toLower) = (s.takeWhile (fun c => c != ':')).map
              Char.toLower := List.map_congr_left (fun a _ => toLower_idem a)
          rw [hone] at hdata
          obtain ⟨y0, y1, y2, y3, y4, t, hshape, g0, g1, g2, g3, g4, hdrop⟩ :=
            scheme_shape s hdata hlen
          by_cases h2 : t.take 2 = ['/', '/']
          · -- then s would start case-insensitively with "https://"
            exfalso
            rcases t with _ | ⟨z0, _ | ⟨z1, t'⟩⟩ <;> simp at h2
            obtain ⟨rfl, rfl⟩ := h2
            rw [hd] at hlf
            rw [hshape] at hlf
            simp [lpre, g0, g1, g2, g3, g4, c5, c6] at hlf
          · have hnb : ∀ c ∈ t, c ≠ '[' ∧ c ≠ ']' := by
              intro c hc
              apply hs
              rw [hshape]
              simp [hc]
            have hss' : splitScheme s =
                ((s.takeWhile (fun c => c != ':')).map Char.toLower, t) := by
              rw [hss, hdrop]
            rw [validSourceCore_eq2 s _ t (rawNetloc t) hss'
              (urlNetloc?_isSome t hnb)]
            rw [if_neg (fun hne => hne hsch)]
            have hraw : rawNetloc t = [] := by
              rw [rawNetloc, if_neg h2]
            rw [hraw]
            decide
        · have hnl := urlNetloc?_isSome
            (s.drop ((s.takeWhile (fun c => c != ':')).length + 1))
            (fun c hc => hs c (List.drop_subset _ s hc))
          rw [validSourceCore_eq2 s _ _ _ hss hnl]
          rw [if_pos hsch]
      · have hss : splitScheme s = ([], s) := by
          simp only [splitScheme]
          rw [if_neg hlen, if_neg hguard]
        rw [validSourceCore_eq2 s [] s (rawNetloc s) hss (urlNetloc?_isSome s hs)]
        rw [if_pos (by decide)]

/-! ## Claim theorems: Trust Policy (C1) -/

theorem stripList_subset (l : List Char) : ∀ c ∈ stripList l, c ∈ l := by
  intro c hc
  rw [stripList, List.mem_reverse] at hc
  have hc2 := List.dropWhile_subset _ hc
  rw [List.mem_reverse] at hc2
  exact List.dropWhile_subset _ hc2

/-- C1 (counterexample): the claim's "starts with the literal
`https://` " is violated — `urlparse` lower-cases the scheme, so
`"HTTPS://fda.gov/x"` is accepted by `_is_valid_source` although it does
not start with `"https://"` (and so the claim's predicate is false on
it). -/
theorem C1_counterexample :
    _is_valid_source? "HTTPS://fda.gov/x" = some true ∧
    claim_is_valid_source "HTTPS://fda.gov/x" = false := by decide

/-- C1 (amended): for every bracket-free url (a `'['`/`']'` in the
authority makes `urlparse` raise instead), `_is_valid_source` returns
true iff the whitespace-stripped url starts case-insensitively with
`"https://"` and its lower-cased authority — up to the next `'/'`, `'?'`
or `'#'`, including any userinfo or port — equals a trusted domain or
ends with `"."` followed by one; empty and non-`https` urls yield
false. -/
theorem C1_amended_trust (url : String)
    (h : ∀ c ∈ url.data, c ≠ '[' ∧ c ≠ ']') :
    _is_valid_source? url = some (amended_is_valid_source url) := by
  rw [_is_valid_source?, amended_is_valid_source]
  by_cases hu : url = ""
  · rw [if_pos hu]
    subst hu
    decide
  · rw [if_neg hu]
    exact validSourceCore_amended (stripList url.data)
      (fun c hc => h c (stripList_subset url.data c hc))

theorem C1_witness :
    (∀ c ∈ ("https://www.fda.gov/path" : String).data, c ≠ '[' ∧ c ≠ ']') ∧
    _is_valid_source? "https://www.fda.gov/path" =
      some (amended_is_valid_source "https://www.fda.gov/path") :=
  ⟨by decide, C1_amended_trust "https://www.fda.gov/path" (by decide)⟩

/-! ## Helper lemmas about the parser -/

theorem mapOpt_mem {α β : Type} (f : α → Option β) (l : List α)
    (bs : List β) (b : β) (h : mapOpt f l = some bs) (hb : b ∈ bs) :
    ∃ a, a ∈ l ∧ f a = some b := by
  induction l generalizing bs with
  | nil =>
    simp only [mapOpt] at h
    cases h
    simp at hb
  | cons a l ih =>
    simp only [mapOpt] at h
    cases hfa : f a with
    | none => rw [hfa] at h; simp at h
    | some b0 =>
      rw [hfa] at h
      cases hml : mapOpt f l with
      | none => rw [hml] at h; simp at h
      | some bs0 =>
        rw [hml] at h
        simp only [Option.some.injEq] at h
        subst h
        rcases List.mem_cons.mp hb with rfl | hmem
        · exact ⟨a, List.mem_cons_self a l, hfa⟩
        · obtain ⟨a', ha', hfa'⟩ := ih bs0 hml hmem
          exact ⟨a', List.mem_cons_of_mem a ha', hfa'⟩

/-- Every record in a successful parse comes from some line of the input,
via `processLine?`. -/
theorem extract_mem (md : Option String) (api_name country : String)
    (skip_batch : List String) (out : List ManufacturerRecord)
    (rec : ManufacturerRecord)
    (h : _extract_manufacturers? md api_name country skip_batch = some out)
    (hrec : rec ∈ out) :
    ∃ line, line ∈ pySplitlines (md.getD "") ∧
      processLine? api_name country (skip_batch.map pyLower) line
        = some (some rec) := by
  cases md with
  | none =>
    simp only [_extract_manufacturers?, Option.some.injEq] at h
    subst h
    simp at hrec
  | some md =>
    simp only [_extract_manufacturers?] at h
    by_cases hmd : md = ""
    · rw [if_pos hmd] at h
      cases h
      simp at hrec
    · rw [if_neg hmd] at h
      cases hrows : mapOpt (processLine? api_name country (skip_batch.map pyLower))
          (pySplitlines md) with
      | none => rw [hrows] at h; simp at h
      | some rows =>
        rw [hrows] at h
        simp only [Option.map_some', Option.some.injEq] at h
        subst h
        obtain ⟨o, ho, hid⟩ := List.mem_filterMap.mp hrec
        obtain ⟨line, hline, hpl⟩ := mapOpt_mem _ _ _ _ hrows ho
        refine ⟨line, hline, ?_⟩
        rw [hpl]
        exact congrArg some hid

/-- What holds of a record appended by the loop body: its manufacturer
(lower-cased) avoids the skip set, its country contains the requested
country, and its `usdmf`/`cep` flags are exactly the yes/t-normalisation
of row fields 2 and 3. -/
theorem processLine_some_spec (api_name country : String)
    (el : List String) (line : String) (rec : ManufacturerRecord)
    (h : processLine? api_name country el line = some (some rec)) :
    rec.api_name = api_name ∧
    el.contains (pyLower rec.manufacturer) = false ∧
    pyContains (pyLower rec.country) (pyLower country) = true ∧
    rec.usdmf = (if ["yes", "t"].contains
        (pyLower (pyStrip ((rowFields line).getD 2 ""))) then "Yes" else "No") ∧
    rec.cep = (if ["yes", "t"].contains
        (pyLower (pyStrip ((rowFields line).getD 3 ""))) then "Yes" else "No") := by
  simp only [processLine?] at h
  split at h
  · split at h
    · simp at h
    · split at h
      · simp at h
      · split at h
        · rename_i manu_name country_val f2 f3 source_name source_url
            e0 e1 e2 e3 e4 e5
          split at h
          · simp at h
          · rename_i hskip
            split at h
            · simp at h
            · simp at h
            · split at h
              · rename_i hcountry
                simp only [Option.some.injEq] at h
                subst h
                refine ⟨rfl, by simpa using hskip, hcountry, ?_, ?_⟩
                · have hf : ((rowFields line).getD 2 "") = f2 := by
                    simp only [rowFields, List.getD_eq_getElem?_getD,
                      ← List.get?_eq_getElem?, e2, Option.getD_some]
                  rw [hf]
                · have hf : ((rowFields line).getD 3 "") = f3 := by
                    simp only [rowFields, List.getD_eq_getElem?_getD,
                      ← List.get?_eq_getElem?, e3, Option.getD_some]
                  rw [hf]
              · simp at h
        · simp at h
  · simp at h

/-! ## Claim theorems: parser (C2, C3, C4, C9, C10) -/

/-- C2: for every input text, api name, country and skip batch, no record
whose manufacturer name (lower-cased, as the code folds case) is a member
of the skip batch appears in the parser's output, whatever the row's other
fields are. -/
theorem C2_skip_filter (md : Option String) (api_name country : String)
    (skip_batch : List String) (out : List ManufacturerRecord)
    (rec : ManufacturerRecord)
    (h : _extract_manufacturers? md api_name country skip_batch = some out)
    (hrec : rec ∈ out) :
    (skip_batch.map pyLower).contains (pyLower rec.manufacturer) = false := by
  obtain ⟨line, _, hpl⟩ :=
    extract_mem md api_name country skip_batch out rec h hrec
  exact (processLine_some_spec api_name country (skip_batch.map pyLower)
    line rec hpl).2.1

theorem C2_witness :
    _extract_manufacturers?
        (some "| Cipla | India | yes | no | FDA | https://fda.gov/x |")
        "Metformin" "India" ["sun pharma"] =
      some [⟨"Metformin", "Cipla", "India", "Yes", "No", "FDA",
            "https://fda.gov/x"⟩] ∧
    (⟨"Metformin", "Cipla", "India", "Yes", "No", "FDA", "https://fda.gov/x"⟩ :
        ManufacturerRecord) ∈
      [(⟨"Metformin", "Cipla", "India", "Yes", "No", "FDA",
         "https://fda.gov/x"⟩ : ManufacturerRecord)] ∧
    (["sun pharma"].map pyLower).contains
      (pyLower (⟨"Metformin", "Cipla", "India", "Yes", "No", "FDA",
        "https://fda.gov/x"⟩ : ManufacturerRecord).manufacturer) = false :=
  ⟨by decide, by decide,
   C2_skip_filter (some "| Cipla | India | yes | no | FDA | https://fda.gov/x |")
     "Metformin" "India" ["sun pharma"]
     [⟨"Metformin", "Cipla", "India", "Yes", "No", "FDA", "https://fda.gov/x"⟩]
     ⟨"Metformin", "Cipla", "India", "Yes", "No", "FDA", "https://fda.gov/x"⟩
     (by decide) (by decide)⟩

/-- C3: a row is kept only if the requested country is a case-insensitive
substring of the row's country field, so every parsed record's country
field contains (case-insensitively) the requested country. -/
theorem C3_country_filter (md : Option String) (api_name country : String)
    (skip_batch : List String) (out : List ManufacturerRecord)
    (rec : ManufacturerRecord)
    (h : _extract_manufacturers? md api_name country skip_batch = some out)
    (hrec : rec ∈ out) :
    pyContains (pyLower rec.country) (pyLower country) = true := by
  obtain ⟨line, _, hpl⟩ :=
    extract_mem md api_name country skip_batch out rec h hrec
  exact (processLine_some_spec api_name country (skip_batch.map pyLower)
    line rec hpl).2.2.1

theorem C3_witness :
    _extract_manufacturers?
        (some "| Alpha Labs | Indiana-based | yes | no | FDA | https://fda.gov/a |")
        "Metformin" "India" [] =
      some [⟨"Metformin", "Alpha Labs", "Indiana-based", "Yes", "No", "FDA",
            "https://fda.gov/a"⟩] ∧
    (⟨"Metformin", "Alpha Labs", "Indiana-based", "Yes", "No", "FDA",
        "https://fda.gov/a"⟩ : ManufacturerRecord) ∈
      [(⟨"Metformin", "Alpha Labs", "Indiana-based", "Yes", "No", "FDA",
         "https://fda.gov/a"⟩ : ManufacturerRecord)] ∧
    pyContains
      (pyLower (⟨"Metformin", "Alpha Labs", "Indiana-based", "Yes", "No", "FDA",
        "https://fda.gov/a"⟩ : ManufacturerRecord).country)
      (pyLower "India") = true :=
  ⟨by decide, by decide,
   C3_country_filter
     (some "| Alpha Labs | Indiana-based | yes | no | FDA | https://fda.gov/a |")
     "Metformin" "India" []
     [⟨"Metformin", "Alpha Labs", "Indiana-based", "Yes", "No", "FDA",
       "https://fda.gov/a"⟩]
     ⟨"Metformin", "Alpha Labs", "Indiana-based", "Yes", "No", "FDA",
      "https://fda.gov/a"⟩
     (by decide) (by decide)⟩

/-- C4: each parsed record's `usdmf`/`cep` field is `"Yes"` exactly when
the trimmed lower-cased row field 2 (resp. 3) is `"yes"` or `"t"`, and
`"No"` otherwise; in particular no parsed record ever carries
`"Unknown"`. -/
theorem C4_flags (md : Option String) (api_name country : String)
    (skip_batch : List String) (out : List ManufacturerRecord)
    (rec : ManufacturerRecord)
    (h : _extract_manufacturers? md api_name country skip_batch = some out)
    (hrec : rec ∈ out) :
    rec.usdmf ≠ "Unknown" ∧ rec.cep ≠ "Unknown" ∧
    ∃ line, line ∈ pySplitlines (md.getD "") ∧
      rec.usdmf = (if ["yes", "t"].contains
          (pyLower (pyStrip ((rowFields line).getD 2 ""))) then "Yes" else "No") ∧
      rec.cep = (if ["yes", "t"].contains
          (pyLower (pyStrip ((rowFields line).getD 3 ""))) then "Yes" else "No") := by
  obtain ⟨line, hline, hpl⟩ :=
    extract_mem md api_name country skip_batch out rec h hrec
  obtain ⟨-, -, -, hus, hcep⟩ :=
    processLine_some_spec api_name country (skip_batch.map pyLower) line rec hpl
  refine ⟨?_, ?_, line, hline, hus, hcep⟩
  · rw [hus]
    split <;> decide
  · rw [hcep]
    split <;> decide

theorem C4_witness :
    _extract_manufacturers?
        (some "| Cipla | India | t | maybe | FDA | https://fda.gov/x |")
        "Metformin" "India" [] =
      some [⟨"Metformin", "Cipla", "India", "Yes", "No", "FDA",
            "https://fda.gov/x"⟩] ∧
    (⟨"Metformin", "Cipla", "India", "Yes", "No", "FDA", "https://fda.gov/x"⟩ :
        ManufacturerRecord) ∈
      [(⟨"Metformin", "Cipla", "India", "Yes", "No", "FDA",
         "https://fda.gov/x"⟩ : ManufacturerRecord)] ∧
    ((⟨"Metformin", "Cipla", "India", "Yes", "No", "FDA", "https://fda.gov/x"⟩ :
        ManufacturerRecord).usdmf ≠ "Unknown" ∧
     (⟨"Metformin", "Cipla", "India", "Yes", "No", "FDA", "https://fda.gov/x"⟩ :
        ManufacturerRecord).cep ≠ "Unknown" ∧
     ∃ line, line ∈ pySplitlines
        ((some "| Cipla | India | t | maybe | FDA | https://fda.gov/x |").getD "") ∧
       (⟨"Metformin", "Cipla", "India", "Yes", "No", "FDA", "https://fda.gov/x"⟩ :
          ManufacturerRecord).usdmf = (if ["yes", "t"].contains
           (pyLower (pyStrip ((rowFields line).getD 2 ""))) then "Yes" else "No") ∧
       (⟨"Metformin", "Cipla", "India", "Yes", "No", "FDA", "https://fda.gov/x"⟩ :
          ManufacturerRecord).cep = (if ["yes", "t"].contains
           (pyLower (pyStrip ((rowFields line).getD 3 ""))) then "Yes" else "No")) :=
  ⟨by decide, by decide,
   C4_flags (some "| Cipla | India | t | maybe | FDA | https://fda.gov/x |")
     "Metformin" "India" []
     [⟨"Metformin", "Cipla", "India", "Yes", "No", "FDA", "https://fda.gov/x"⟩]
     ⟨"Metformin", "Cipla", "India", "Yes", "No", "FDA", "https://fda.gov/x"⟩
     (by decide) (by decide)⟩

/-- C9: the parser is not exception-free — a row whose `source_url`
contains `'['` without `']'` makes `urlparse` raise `ValueError`
(modelled `none`), which escapes `_extract_manufacturers` (it is caught
only upstream, in `_discover_with_groq`, where the whole batch is
discarded).  This evaluates the code at such a failing input. -/
theorem C9_url_exception :
    _extract_manufacturers?
      (some "| Alpha | India | yes | no | FDA | https://[gov |")
      "Metformin" "India" [] = none := by decide

/-- C10: the parser does not enforce a non-empty manufacturer: the 8-pipe
row with an empty first cell, a trusted https source and a matching
country yields a record whose manufacturer is the empty string. -/
theorem C10_empty_manufacturer :
    _extract_manufacturers?
      (some "|  | India | yes | no | FDA | https://fda.gov/x |")
      "Metformin" "India" ["cipla", "sun pharma"] =
    some [⟨"Metformin", "", "India", "Yes", "No", "FDA",
          "https://fda.gov/x"⟩] := by decide

/-! ## Claim theorems: batch partitioning (C5) -/

theorem chunk30_nil : chunk30 [] = [] := by
  rw [chunk30]
  simp

theorem chunk30_cons (l : List String) (h : l ≠ []) :
    chunk30 l = l.take 30 :: chunk30 (l.drop 30) := by
  rw [chunk30]
  simp [h]

theorem chunk30_flatten (l : List String) : (chunk30 l).flatten = l := by
  by_cases h : l = []
  · subst h
    rw [chunk30_nil]
    rfl
  · rw [chunk30_cons l h]
    simp only [List.flatten_cons]
    rw [chunk30_flatten (l.drop 30)]
    exact List.take_append_drop 30 l
termination_by l.length
decreasing_by
  simp only [List.length_drop]
  have : 0 < l.length := List.length_pos.mpr (by assumption)
  omega

theorem chunk30_sizes (l : List String) (b : List String)
    (hb : b ∈ chunk30 l) : b.length ≤ 30 := by
  by_cases h : l = []
  · subst h
    rw [chunk30_nil] at hb
    simp at hb
  · rw [chunk30_cons l h] at hb
    rcases List.mem_cons.mp hb with rfl | hb'
    · simp [List.length_take_le 30 l]
    · exact chunk30_sizes (l.drop 30) b hb'
termination_by l.length
decreasing_by
  simp only [List.length_drop]
  have : 0 < l.length := List.length_pos.mpr (by assumption)
  omega

/-- C5: the batch partition is an ordered list of consecutive slices of
size at most 30 whose concatenation is the whole skip list; an empty skip
list gives exactly one empty batch; a 65-name skip list gives exactly
three batches of sizes 30, 30 and 5. -/
theorem C5_batches (skip : List String) :
    (makeBatches skip).flatten = skip ∧
    (∀ b ∈ makeBatches skip, b.length ≤ 30) ∧
    makeBatches ([] : List String) = [[]] ∧
    (skip.length = 65 → (makeBatches skip).map List.length = [30, 30, 5]) := by
  have hmbnil : makeBatches ([] : List String) = [[]] := by
    rw [makeBatches, chunk30_nil]
    rfl
  by_cases hs : skip = []
  · subst hs
    refine ⟨?_, ?_, hmbnil, ?_⟩
    · rw [hmbnil]
      rfl
    · rw [hmbnil]
      intro b hb
      rcases List.mem_singleton.mp hb with rfl
      simp
    · intro h65
      simp at h65
  · have hne : chunk30 skip ≠ [] := by
      rw [chunk30_cons skip hs]
      simp
    have hmb : makeBatches skip = chunk30 skip := by
      rw [makeBatches]
      simp [List.isEmpty_iff, hne]
    refine ⟨?_, ?_, hmbnil, ?_⟩
    · rw [hmb]
      exact chunk30_flatten skip
    · rw [hmb]
      exact chunk30_sizes skip
    · intro h65
      rw [hmb, chunk30_cons skip hs]
      have l2 : (skip.drop 30).length = 35 := by
        rw [List.length_drop]
        omega
      have h2 : skip.drop 30 ≠ [] := by
        intro e
        rw [e] at l2
        simp at l2
      rw [chunk30_cons _ h2]
      have l3 : ((skip.drop 30).drop 30).length = 5 := by
        rw [List.length_drop, l2]
      have h3 : (skip.drop 30).drop 30 ≠ [] := by
        intro e
        rw [e] at l3
        simp at l3
      rw [chunk30_cons _ h3]
      have l4 : (((skip.drop 30).drop 30).drop 30).length = 0 := by
        rw [List.length_drop, l3]
      have h4 : ((skip.drop 30).drop 30).drop 30 = [] :=
        List.eq_nil_of_length_eq_zero l4
      rw [h4, chunk30_nil]
      simp [List.length_take, h65, l2, l3]

theorem C5_witness :
    (List.replicate 65 "m").length = 65 ∧
    (makeBatches (List.replicate 65 "m")).map List.length = [30, 30, 5] :=
  ⟨by decide, (C5_batches (List.replicate 65 "m")).2.2.2 (by decide)⟩

/-! ## Claim theorems: orchestrator (C6, C7, C8) -/

/-- Loop step when the current batch yields nothing: keep iterating,
prepending this batch's events. -/
theorem runBatches_cons_empty (genv : GroqEnv) (api_name country : String)
    (b : List String) (bs : List (List String))
    (hres : (_discover_with_groq genv api_name country b).1 = []) :
    runBatches genv api_name country (b :: bs) =
      ((runBatches genv api_name country bs).1,
       (_discover_with_groq genv api_name country b).2 ++
         (runBatches genv api_name country bs).2) := by
  rw [runBatches]
  simp [hres]

/-- Loop step when the current batch yields records: the loop stops. -/
theorem runBatches_cons_ne (genv : GroqEnv) (api_name country : String)
    (b : List String) (bs : List (List String))
    (hres : (_discover_with_groq genv api_name country b).1 ≠ []) :
    runBatches genv api_name country (b :: bs) =
      _discover_with_groq genv api_name country b := by
  rw [runBatches]
  simp [List.isEmpty_iff, hres]

/-- When the model client is unconfigured, the batch loop finds nothing
and performs nothing. -/
theorem runBatches_unconfigured (genv : GroqEnv)
    (hg : genv.configured = false) (api_name country : String)
    (batches : List (List String)) :
    runBatches genv api_name country batches = ([], []) := by
  induction batches with
  | nil => rfl
  | cons b bs ih =>
    have hd : _discover_with_groq genv api_name country b = ([], []) := by
      rw [_discover_with_groq, hg]
      rfl
    rw [runBatches, hd, ih]
    rfl

/-- C7: `discover` validates its two inputs after trimming: if either is
missing (`None`) or whitespace-only, it returns the `success=False`
failure dict with its descriptive message and performs no external
operation at all; in every other case the returned dict has
`success=True`. -/
theorem C7_validation (genv : GroqEnv) (store : StoreEnv)
    (api_name0 country0 : Option String) :
    (pyStrip (api_name0.getD "") = "" ∨ pyStrip (country0.getD "") = "" →
      discover genv store api_name0 country0 =
        (DiscoveryResult.failure "API name and country are required for discovery.",
         [])) ∧
    (pyStrip (api_name0.getD "") ≠ "" → pyStrip (country0.getD "") ≠ "" →
      ∃ ex nw al n evs, discover genv store api_name0 country0 =
        (DiscoveryResult.success ex nw al n, evs)) := by
  constructor
  · intro h
    rw [discover, if_pos h]
  · intro ha hc
    rw [discover, if_neg (by tauto)]
    exact ⟨_, _, _, _, _, rfl⟩

theorem C7_witness :
    discover ⟨false, fun _ _ _ => none⟩
        ⟨fun _ _ => [], fun rs _ => (rs.length, rs)⟩
        (some "   ") (some "India") =
      (DiscoveryResult.failure "API name and country are required for discovery.",
       []) :=
  (C7_validation ⟨false, fun _ _ _ => none⟩
    ⟨fun _ _ => [], fun rs _ => (rs.length, rs)⟩
    (some "   ") (some "India")).1 (Or.inl (by decide))

/-- C8: with valid inputs but no configured model client, `discover`
succeeds with zero inserted records, an empty `new_records`, no insert
performed, and `existing_records`/`all_records` both equal to the same
store query on the same arguments (the trace shows exactly the two
fetches). -/
theorem C8_no_groq (genv : GroqEnv) (store : StoreEnv)
    (api_name0 country0 : Option String)
    (hg : genv.configured = false)
    (ha : pyStrip (api_name0.getD "") ≠ "")
    (hc : pyStrip (country0.getD "") ≠ "") :
    discover genv store api_name0 country0 =
      (DiscoveryResult.success
         (store.query (pyStrip (api_name0.getD "")) (pyStrip (country0.getD "")))
         []
         (store.query (pyStrip (api_name0.getD "")) (pyStrip (country0.getD "")))
         0,
       [DiscoveryEvent.storeFetch (pyStrip (api_name0.getD ""))
          (pyStrip (country0.getD "")),
        DiscoveryEvent.storeFetch (pyStrip (api_name0.getD ""))
          (pyStrip (country0.getD ""))]) := by
  rw [discover, if_neg (by tauto)]
  simp only [runBatches_unconfigured genv hg]
  rfl

theorem C8_witness :
    (⟨false, fun _ _ _ => none⟩ : GroqEnv).configured = false ∧
    discover ⟨false, fun _ _ _ => none⟩
        ⟨fun _ _ => [], fun rs _ => (rs.length, rs)⟩
        (some "Metformin") (some "India") =
      (DiscoveryResult.success [] [] [] 0,
       [DiscoveryEvent.storeFetch "Metformin" "India",
        DiscoveryEvent.storeFetch "Metformin" "India"]) :=
  ⟨rfl,
   (C8_no_groq ⟨false, fun _ _ _ => none⟩
     ⟨fun _ _ => [], fun rs _ => (rs.length, rs)⟩
     (some "Metformin") (some "India") rfl (by decide) (by decide)).trans
     (by decide)⟩

/-- C6: the batch loop tries batches strictly in order; its event trace is
exactly that of the first `k` batches for some `k`, every tried batch
before the last yielded no records, and if the loop result is non-empty
it is exactly the yield of the `k`-th (first non-empty) batch — batches
after it are never attempted.  If the result is empty, every batch was
tried and yielded nothing. -/
theorem C6_short_circuit (genv : GroqEnv) (api_name country : String)
    (batches : List (List String)) :
    ∃ k, k ≤ batches.length ∧
      (runBatches genv api_name country batches).2 =
        ((batches.take k).map
          (fun b => (_discover_with_groq genv api_name country b).2)).flatten ∧
      (∀ j, j + 1 < k →
        (_discover_with_groq genv api_name country (batches.getD j [])).1 = []) ∧
      ((runBatches genv api_name country batches).1 = [] →
        k = batches.length ∧
        ∀ b ∈ batches, (_discover_with_groq genv api_name country b).1 = []) ∧
      ((runBatches genv api_name country batches).1 ≠ [] →
        k ≠ 0 ∧
        (runBatches genv api_name country batches).1 =
          (_discover_with_groq genv api_name country (batches.getD (k - 1) [])).1 ∧
        (_discover_with_groq genv api_name country (batches.getD (k - 1) [])).1
          ≠ []) := by
  induction batches with
  | nil =>
    exact ⟨0, Nat.le_refl 0, rfl, by omega, fun _ => ⟨rfl, by simp⟩,
      fun hne => absurd rfl hne⟩
  | cons b bs ih =>
    obtain ⟨k, hk, hev, hpre, hemp, hne⟩ := ih
    by_cases hres : (_discover_with_groq genv api_name country b).1 = []
    · have hstep := runBatches_cons_empty genv api_name country b bs hres
      refine ⟨k + 1, ?_, ?_, ?_, ?_, ?_⟩
      · simp only [List.length_cons]
        omega
      · rw [hstep]
        simp only [List.take_succ_cons, List.map_cons, List.flatten_cons]
        rw [hev]
      · intro j hj
        cases j with
        | zero => simpa using hres
        | succ j' =>
          simp only [List.getD_cons_succ]
          exact hpre j' (by omega)
      · intro hmain
        rw [hstep] at hmain
        obtain ⟨hk', hall⟩ := hemp hmain
        refine ⟨by simp [List.length_cons, hk'], ?_⟩
        intro b' hb'
        rcases List.mem_cons.mp hb' with rfl | hmem
        · exact hres
        · exact hall b' hmem
      · intro hmain
        rw [hstep] at hmain
        simp only at hmain
        obtain ⟨hk0, heq, hlast⟩ := hne hmain
        have hgd : (b :: bs).getD (k + 1 - 1) [] = bs.getD (k - 1) [] := by
          have he : k + 1 - 1 = (k - 1) + 1 := by omega
          rw [he, List.getD_cons_succ]
        refine ⟨by omega, ?_, ?_⟩
        · rw [hstep, hgd]
          exact heq
        · rw [hgd]
          exact hlast
    · have hstep := runBatches_cons_ne genv api_name country b bs hres
      refine ⟨1, ?_, ?_, by omega, ?_, ?_⟩
      · simp [List.length_cons]
      · rw [hstep]
        simp
      · intro hmain
        rw [hstep] at hmain
        exact absurd hmain hres
      · intro _
        rw [hstep]
        exact ⟨by omega, rfl, by simpa using hres⟩

theorem C6_witness :
    ∃ k, k ≤ ([[], ["cipla"]] : List (List String)).length ∧
      (runBatches groqEnvW "Metformin" "India" [[], ["cipla"]]).2 =
        ((([[], ["cipla"]] : List (List String)).take k).map
          (fun b => (_discover_with_groq groqEnvW "Metformin" "India" b).2)).flatten ∧
      (∀ j, j + 1 < k →
        (_discover_with_groq groqEnvW "Metformin" "India"
          (([[], ["cipla"]] : List (List String)).getD j [])).1 = []) ∧
      ((runBatches groqEnvW "Metformin" "India" [[], ["cipla"]]).1 = [] →
        k = ([[], ["cipla"]] : List (List String)).length ∧
        ∀ b ∈ ([[], ["cipla"]] : List (List String)),
          (_discover_with_groq groqEnvW "Metformin" "India" b).1 = []) ∧
      ((runBatches groqEnvW "Metformin" "India" [[], ["cipla"]]).1 ≠ [] →
        k ≠ 0 ∧
        (runBatches groqEnvW "Metformin" "India" [[], ["cipla"]]).1 =
          (_discover_with_groq groqEnvW "Metformin" "India"
            (([[], ["cipla"]] : List (List String)).getD (k - 1) [])).1 ∧
        (_discover_with_groq groqEnvW "Metformin" "India"
          (([[], ["cipla"]] : List (List String)).getD (k - 1) [])).1 ≠ []) :=
  C6_short_circuit groqEnvW "Metformin" "India" [[], ["cipla"]]
